import Mathlib

/-!
Shallow embedding of the program in `main.go`: three HTTP servers built from
Go's standard library.

* Port 8080: `http.Server` whose handler is `GetHandler{}` directly (no mux) —
  every request gets the current local time formatted as RFC 3339.
* Port 8081: a `ServeMux` with patterns `/` (current UTC time as RFC 3339 text,
  or a JSON object when the Accept header equals "JSON" after `strings.ToUpper`)
  and `/hello/{name}` (greeting with a path parameter).
* Port 8083: a `ServeMux` with pattern `/log`, whose handler is wrapped by the
  `IpAddressLogger` middleware.

Machine time is modelled as a `Nat` count of seconds since the Unix epoch
(1970-01-01T00:00:00Z) together with a local-zone offset in minutes; the civil
calendar decomposition below implements the proleptic Gregorian calendar that
Go's `time` package realises.  Strings are modelled over their character lists;
ASCII is assumed for case mapping (Go's `strings.ToUpper` agrees with
`Char.toUpper` on ASCII, and all strings the program compares are ASCII).
-/

/-- Civil (Gregorian) date-time in some fixed zone, plus the weekday,
mirroring the fields of Go's `time.Time` that the program reads:
`Year`, `Month`, `Day`, `Hour`, `Minute`, `Second`, `Weekday`. -/
structure DateTime where
  year : Nat
  month : Nat
  day : Nat
  hour : Nat
  minute : Nat
  second : Nat
  weekday : Nat
deriving DecidableEq, Repr

/-- Decompose seconds since the Unix epoch into a civil UTC date-time
(proleptic Gregorian calendar, as Go's `time.Time.Date`/`Clock` compute it).
The weekday index follows Go's `time.Weekday`: 0 = Sunday; 1970-01-01 was a
Thursday (index 4). -/
def utcFromUnix (t : Nat) : DateTime :=
  let days := t / 86400
  let secs := t % 86400
  let z := days + 719468
  let era := z / 146097
  let doe := z % 146097
  let yoe := (doe - doe / 1460 + doe / 36524 - doe / 146097) / 365
  let y := yoe + era * 400
  let doy := doe - (365 * yoe + yoe / 4 - yoe / 100)
  let mp := (5 * doy + 2) / 153
  let d := doy - (153 * mp + 2) / 5 + 1
  let m := if mp < 10 then mp + 3 else mp - 9
  let year := if m ≤ 2 then y + 1 else y
  ⟨year, m, d, secs / 3600, secs % 3600 / 60, secs % 60, (days + 4) % 7⟩

/-- Names returned by Go's `time.Weekday.String`, indexed 0 = Sunday. -/
def weekdayName (w : Nat) : String :=
  (["Sunday", "Monday", "Tuesday", "Wednesday", "Thursday", "Friday",
    "Saturday"]).getD w ""

/-- Names returned by Go's `time.Month.String`, indexed 1 = January. -/
def monthName (m : Nat) : String :=
  (["January", "February", "March", "April", "May", "June", "July", "August",
    "September", "October", "November", "December"]).getD (m - 1) ""

/-- Zero-pad the decimal representation of `n` on the left to width `w`,
as Go's time formatter does for the numeric fields of RFC 3339. -/
def padNum (w : Nat) (n : Nat) : String :=
  ⟨List.replicate (w - (Nat.repr n).length) '0' ++ (Nat.repr n).data⟩

/-- The date-and-clock part of Go's RFC 3339 rendering of a `time.Time`,
layout `2006-01-02T15:04:05` (the zone suffix is appended separately). -/
def formatCivil (d : DateTime) : String :=
  padNum 4 d.year ++ "-" ++ padNum 2 d.month ++ "-" ++ padNum 2 d.day ++ "T" ++
    padNum 2 d.hour ++ ":" ++ padNum 2 d.minute ++ ":" ++ padNum 2 d.second

/-- Zone suffix of Go's RFC 3339 layout `Z07:00`: `Z` for UTC, otherwise a
signed `hh:mm` offset. -/
def formatOffset (offMin : Int) : String :=
  if offMin = 0 then "Z"
  else if 0 < offMin then
    "+" ++ padNum 2 (offMin.toNat / 60) ++ ":" ++ padNum 2 (offMin.toNat % 60)
  else
    "-" ++ padNum 2 ((-offMin).toNat / 60) ++ ":" ++ padNum 2 ((-offMin).toNat % 60)

/-- Go's `t.Format(time.RFC3339)` for an instant `t` (Unix seconds) carried in
a zone whose offset from UTC is `offMin` minutes: the civil fields are those of
the local wall clock, and the offset is rendered in the suffix.  No conversion
to UTC happens here. -/
def goFormatRFC3339 (instant : Nat) (offMin : Int) : String :=
  formatCivil (utcFromUnix ((instant + offMin * 60).toNat)) ++ formatOffset offMin

/-- Go's `t.UTC().Format(time.RFC3339)`: civil fields of the UTC wall clock,
with the `Z` suffix. -/
def rfc3339UTC (t : Nat) : String :=
  formatCivil (utcFromUnix t) ++ "Z"

/-- `buildJson` from `main.go`: the string `json.Marshal` produces for the
anonymous struct with tags `day_of_week, day_of_month, month, year, hour,
minute, second`, fields taken from the given `time.Time`.  `json.Marshal`
emits the fields in struct order with no spaces. -/
def buildJson (now : DateTime) : String :=
  "\x7b\"day_of_week\":\"" ++ weekdayName now.weekday ++
    "\",\"day_of_month\":" ++ Nat.repr now.day ++
    ",\"month\":\"" ++ monthName now.month ++
    "\",\"year\":" ++ Nat.repr now.year ++
    ",\"hour\":" ++ Nat.repr now.hour ++
    ",\"minute\":" ++ Nat.repr now.minute ++
    ",\"second\":" ++ Nat.repr now.second ++ "\x7d"

/-! ## Requests and headers -/

/-- The parts of `*http.Request` the program reads: method, URL path, headers
and `RemoteAddr`. -/
structure Request where
  method : String
  path : String
  headers : List (String × String)
  remoteAddr : String
deriving DecidableEq, Repr

/-- `r.Header.Get(k)`: the first value stored under the key, or the empty
string when the header is absent. -/
def headerGet (hs : List (String × String)) (k : String) : String :=
  (hs.lookup k).getD ""

/-- Go's `strings.ToUpper`, restricted to its action on ASCII characters
(`Char.toUpper` is exactly Go's per-rune mapping there; every comparison in
the program is against the ASCII literal "JSON"). -/
def goToUpper (s : String) : String :=
  ⟨s.data.map Char.toUpper⟩

/-- The ASCII lower-case fold, used to state case-insensitive comparison. -/
def goToLower (s : String) : String :=
  ⟨s.data.map Char.toLower⟩

/-- Case-insensitive string equality, stated the way the spec reads
("equals ... in any letter case"): both sides agree after lower-case
folding. -/
abbrev eqCaseInsensitive (a b : String) : Prop :=
  goToLower a = goToLower b

/-! ## ServeMux routing

`http.ServeMux` (Go 1.22) matches the request path against the registered
patterns.  All three patterns of this program carry no method prefix, so they
match every HTTP method.  A pattern ending in `/` (here only the pattern `/`
itself) matches the whole subtree rooted there; `{name}` matches one non-empty
path segment and binds it.  When several patterns match, the most specific one
wins — for this registration set that means `/hello/{name}` is tried before
the catch-all `/`, which the ordered lists below encode.  When no pattern
matches but one would match under a different method the mux answers
405 Method Not Allowed, otherwise 404 Not Found. -/

/-- One segment of a route pattern: a literal, or a `{name}` wildcard. -/
inductive Seg where
  | lit (s : List Char)
  | param (name : String)
deriving DecidableEq, Repr

/-- A registered pattern: optional method, segments, and whether the pattern
ended in `/` (rooted-subtree match). -/
structure Pattern where
  method : Option String
  segs : List Seg
  subtree : Bool
deriving DecidableEq, Repr

/-- The handlers registered in `main.go`, one name per `HandleFunc`/`Handle`
call site (plus the bare `GetHandler` of the 8080 server). -/
inductive HandlerId where
  | rootH
  | helloH
  | logH
deriving DecidableEq, Repr

/-- Split a character list at `/` separators, like path segmentation of
`strings.Split(p, "/")`. -/
def splitSeg : List Char → List (List Char)
  | [] => [[]]
  | c :: cs =>
    if c = '/' then [] :: splitSeg cs
    else
      match splitSeg cs with
      | [] => [[c]]
      | s :: t => (c :: s) :: t

/-- Path segments of a request path (paths start with `/`, which is dropped
before splitting). -/
def pathSegs (p : String) : List (List Char) :=
  splitSeg (p.data.drop 1)

/-- Match pattern segments against path segments exactly; a `{name}` wildcard
requires a non-empty segment and binds it. -/
def matchSegs : List Seg → List (List Char) → Option (List (String × String))
  | [], [] => some []
  | .lit s :: ps, x :: xs => if x = s then matchSegs ps xs else none
  | .param n :: ps, x :: xs =>
    if x = [] then none else (matchSegs ps xs).map (fun ac => (n, ⟨x⟩) :: ac)
  | _, _ => none

/-- Match pattern segments as a prefix of the path segments (rooted-subtree
patterns). -/
def matchSegsPre : List Seg → List (List Char) → Option (List (String × String))
  | [], _ => some []
  | .lit s :: ps, x :: xs => if x = s then matchSegsPre ps xs else none
  | .param n :: ps, x :: xs =>
    if x = [] then none else (matchSegsPre ps xs).map (fun ac => (n, ⟨x⟩) :: ac)
  | _, [] => none

/-- Does a pattern's method constraint admit this request method?  A pattern
registered without a method matches every method. -/
def methodMatches : Option String → String → Bool
  | none, _ => true
  | some m0, m => m0 == m

/-- Match one pattern against the path segments (ignoring the method). -/
def patMatch (pat : Pattern) (segs : List (List Char)) :
    Option (List (String × String)) :=
  if pat.subtree then matchSegsPre pat.segs segs else matchSegs pat.segs segs

/-- First registered route that matches; `checkMethod := false` ignores method
constraints (used to distinguish 404 from 405). -/
def findRoute (pats : List (Pattern × HandlerId)) (checkMethod : Bool)
    (m : String) (segs : List (List Char)) : Option (HandlerId × List (String × String)) :=
  match pats with
  | [] => none
  | (pat, h) :: rest =>
    if !checkMethod || methodMatches pat.method m then
      match patMatch pat segs with
      | some ps => some (h, ps)
      | none => findRoute rest checkMethod m segs
    else findRoute rest checkMethod m segs

/-- Outcome of mux resolution. -/
inductive ResolveResult where
  | ok (h : HandlerId) (params : List (String × String))
  | notFound
  | methodNotAllowed
deriving DecidableEq, Repr

/-- `ServeMux` dispatch: find a route; when none matches, answer 405 if some
pattern would match under another method, else 404. -/
def resolve (pats : List (Pattern × HandlerId)) (m p : String) : ResolveResult :=
  let segs := pathSegs p
  match findRoute pats true m segs with
  | some (h, ps) => .ok h ps
  | none =>
    if (findRoute pats false m segs).isSome then .methodNotAllowed else .notFound

/-- Pattern `/hello/{name}` of the 8081 mux. -/
def helloPat : Pattern := ⟨none, [.lit "hello".data, .param "name"], false⟩

/-- Pattern `/` of the 8081 mux (rooted subtree: matches every path). -/
def rootPat : Pattern := ⟨none, [], true⟩

/-- Pattern `/log` of the 8083 mux. -/
def logPat : Pattern := ⟨none, [.lit "log".data], false⟩

/-- Routes of the mux served on port 8081, most specific first (the order
`http.ServeMux` precedence produces for this registration set). -/
def pats8081 : List (Pattern × HandlerId) := [(helloPat, .helloH), (rootPat, .rootH)]

/-- Routes of the mux served on port 8083. -/
def pats8083 : List (Pattern × HandlerId) := [(logPat, .logH)]

/-! ## Handlers -/

/-- Handler of `mux.HandleFunc("/")` on port 8081: reads the Accept header,
takes the current time converted to UTC, renders it as RFC 3339 text, and
substitutes the JSON rendering when `strings.ToUpper(accept) == "JSON"`;
writes status 200 then the body.  `t` is the Unix instant of `time.Now()`. -/
def rootHandler (t : Nat) (accept : String) : Nat × String :=
  let now := utcFromUnix t
  let response := rfc3339UTC t
  let response := if goToUpper accept = "JSON" then buildJson now else response
  (200, response)

/-- Handler of `mux.HandleFunc("/hello/{name}")`: writes `"Hello " + name`
where `name` is `r.PathValue("name")` (empty when the parameter is absent).
No explicit `WriteHeader`, so Go writes status 200 on the first `Write`. -/
def helloHandler (params : List (String × String)) : Nat × String :=
  (200, "Hello " ++ (params.lookup "name").getD "")

/-- Response of the 8081 mux to a request: resolve, then run the matched
handler; `http.ServeMux` itself answers 404/405 with these bodies. -/
def serveMux8081 (t : Nat) (r : Request) : Nat × String :=
  match resolve pats8081 r.method r.path with
  | .ok .rootH _ => rootHandler t (headerGet r.headers "Accept")
  | .ok .helloH ps => helloHandler ps
  | .ok .logH _ => (200, "logged IP")
  | .notFound => (404, "404 page not found\n")
  | .methodNotAllowed => (405, "Method Not Allowed\n")

/-! ## The IpAddressLogger middleware

The middleware's observable behaviour per request is modelled as an event
trace: it builds a fresh `slog` JSON logger (options, handler, `slog.New` —
one `loggerCreated` event), emits an `Info` record and a `LogAttrs` record,
each carrying the attribute key `"ip:"` with the request's `RemoteAddr`, and
then invokes the wrapped handler.  A wrapped handler is a function from a
request to a response paired with the handler's own event trace. -/

/-- Observable logging-related events of a request's handling. -/
inductive Event where
  | loggerCreated
  | logged (msg : String) (attrs : List (String × String))
  | handlerInvoked
deriving DecidableEq, Repr

/-- Is the event the emission of a structured log record? -/
def isRecord : Event → Bool
  | .logged _ _ => true
  | _ => false

/-- Count of structured log records in a trace. -/
def countRecords (evs : List Event) : Nat :=
  evs.countP isRecord

/-- Count of wrapped-handler invocations recorded in a trace. -/
def countInvocations (evs : List Event) : Nat :=
  evs.countP (fun e => e = Event.handlerInvoked)

/-- Count of logger constructions recorded in a trace. -/
def countLoggerCreations (evs : List Event) : Nat :=
  evs.countP (fun e => e = Event.loggerCreated)

/-- Attributes of a structured log record (empty for non-record events). -/
def recordAttrs : Event → List (String × String)
  | .logged _ attrs => attrs
  | _ => []

/-- The events `IpAddressLogger`'s closure performs itself, before calling
`h.ServeHTTP`: logger construction, then the two records of lines 186–187 of
`main.go`, in order. -/
def ipPreEvents (r : Request) : List Event :=
  [.loggerCreated,
   .logged "slower logging with alternating keys" [("ip:", r.remoteAddr)],
   .logged "faster logging with LogAttrs()" [("ip:", r.remoteAddr)]]

/-- `IpAddressLogger` from `main.go` as a handler transformer: per request it
performs its own events, then invokes the wrapped handler exactly once and
returns that handler's response unchanged. -/
def ipAddressLogger (h : Request → (Nat × String) × List Event)
    (r : Request) : (Nat × String) × List Event :=
  ((h r).1, ipPreEvents r ++ (h r).2)

/-- The base handler registered at `/log` on port 8083: writes "logged IP"
(status 200 implicit on first `Write`), no logging events of its own. -/
def logBaseHandler : Request → (Nat × String) × List Event :=
  fun _ => ((200, "logged IP"), [])

/-- Response and event trace of the 8083 mux: `/log` runs the middleware-
wrapped base handler; anything else is the mux's own 404/405 answer. -/
def serveMux8083 (r : Request) : (Nat × String) × List Event :=
  match resolve pats8083 r.method r.path with
  | .ok _ _ => ipAddressLogger logBaseHandler r
  | .notFound => ((404, "404 page not found\n"), [])
  | .methodNotAllowed => ((405, "Method Not Allowed\n"), [])

/-! ## The 8080 server and the listener goroutines -/

/-- `GetHandler.ServeHTTP`: ignores the request entirely, writes status 200
and `time.Now().Format(time.RFC3339)` — the local wall-clock time, with the
zone offset suffix; no conversion to UTC. -/
def getHandlerServeHTTP (_ : Request) (instant : Nat) (offMin : Int) : Nat × String :=
  (200, goFormatRFC3339 instant offMin)

/-- The server on port 8080 has `GetHandler{}` as its `Handler` with no mux:
every request, whatever its method and path, is handed to
`GetHandler.ServeHTTP`. -/
def serve8080 (r : Request) (instant : Nat) (offMin : Int) : Nat × String :=
  getHandlerServeHTTP r instant offMin

/-- Result value of `s.ListenAndServe()`: `none` models a nil error (it in
fact always returns a non-nil error, but the code checks `err != nil`),
`serverClosed` is the sentinel `http.ErrServerClosed`, and `other` is any
other listen/serve error. -/
inductive ServeErr where
  | serverClosed
  | other (msg : String)
deriving DecidableEq, Repr

/-- `errors.Is(err, http.ErrServerClosed)` for the errors `ListenAndServe`
returns (the sentinel is returned unwrapped). -/
def errorsIsServerClosed : ServeErr → Bool
  | .serverClosed => true
  | _ => false

/-- How each listener goroutine ends. A `panic` in a goroutine terminates the
whole Go process. -/
inductive ListenOutcome where
  | completed
  | fatalStop (e : ServeErr)
deriving DecidableEq, Repr

/-- Lines 30–39 (and the identical blocks at 89–98 and 139–148) of `main.go`:
after `ListenAndServe` returns, a nil error or the `ErrServerClosed` sentinel
lets the goroutine end normally; any other error is passed to `panic`,
terminating the process. -/
def afterListenAndServe (res : Option ServeErr) : ListenOutcome :=
  match res with
  | none => .completed
  | some e => if errorsIsServerClosed e then .completed else .fatalStop e

/-! ## Helper lemmas: ASCII case folding -/

theorem charToNat_ofNat_valid (n : Nat) (h : n.isValidChar) :
    (Char.ofNat n).toNat = n := by
  rw [Char.ofNat, dif_pos h]
  rfl

theorem charToUpper_toLower (c : Char) :
    Char.toUpper (Char.toLower c) = Char.toUpper c := by
  simp only [Char.toLower, Char.toUpper]
  by_cases h : 65 ≤ c.toNat ∧ c.toNat ≤ 90
  · rw [if_pos h]
    have hv : (c.toNat + 32).isValidChar := Or.inl (by omega)
    have ht : (Char.ofNat (c.toNat + 32)).toNat = c.toNat + 32 :=
      charToNat_ofNat_valid _ hv
    rw [ht, if_pos (by omega), if_neg (by omega)]
    have : c.toNat + 32 - 32 = c.toNat := by omega
    rw [this, Char.ofNat_toNat]
  · rw [if_neg h]

theorem charToLower_toUpper (c : Char) :
    Char.toLower (Char.toUpper c) = Char.toLower c := by
  simp only [Char.toLower, Char.toUpper]
  by_cases h : 97 ≤ c.toNat ∧ c.toNat ≤ 122
  · rw [if_pos h]
    have hv : (c.toNat - 32).isValidChar := Or.inl (by omega)
    have ht : (Char.ofNat (c.toNat - 32)).toNat = c.toNat - 32 :=
      charToNat_ofNat_valid _ hv
    rw [ht, if_pos (by omega), if_neg (by omega)]
    have : c.toNat - 32 + 32 = c.toNat := by omega
    rw [this, Char.ofNat_toNat]
  · rw [if_neg h]

theorem goToUpper_goToLower (s : String) :
    goToUpper (goToLower s) = goToUpper s := by
  have hf : Char.toUpper ∘ Char.toLower = Char.toUpper := funext charToUpper_toLower
  simp [goToUpper, goToLower, List.map_map, hf]

theorem goToLower_goToUpper (s : String) :
    goToLower (goToUpper s) = goToLower s := by
  have hf : Char.toLower ∘ Char.toUpper = Char.toLower := funext charToLower_toUpper
  simp [goToUpper, goToLower, List.map_map, hf]

/-- The code's test `strings.ToUpper(v) == "JSON"` holds exactly when `v`
equals "JSON" case-insensitively. -/
theorem goToUpper_eq_JSON_iff (v : String) :
    goToUpper v = "JSON" ↔ eqCaseInsensitive v "JSON" := by
  constructor
  · intro h
    have h2 : goToLower (goToUpper v) = goToLower v := goToLower_goToUpper v
    rw [h] at h2
    exact h2.symm
  · intro h
    have h2 : goToUpper (goToLower v) = goToUpper v := goToUpper_goToLower v
    rw [eqCaseInsensitive] at h
    rw [h] at h2
    rw [← h2]
    decide

/-! ## Helper lemmas: an RFC 3339 body never contains a brace, a JSON body
always starts with one, so the two renderings are never equal. -/

theorem digitChar_ne_brace (m : Nat) (h : m < 10) : Nat.digitChar m ≠ '\x7b' := by
  interval_cases m <;> decide

theorem toDigitsCore_ne_brace (fuel : Nat) : ∀ (n : Nat) (ds : List Char),
    (∀ c ∈ ds, c ≠ '\x7b') → ∀ c ∈ Nat.toDigitsCore 10 fuel n ds, c ≠ '\x7b' := by
  induction fuel with
  | zero => intro n ds hds c hc; exact hds c hc
  | succ fuel ih =>
    intro n ds hds c hc
    simp only [Nat.toDigitsCore] at hc
    have hcons : ∀ x ∈ Nat.digitChar (n % 10) :: ds, x ≠ '\x7b' := by
      intro x hx
      rcases List.mem_cons.mp hx with h | h
      · rw [h]; exact digitChar_ne_brace _ (Nat.mod_lt n (by norm_num))
      · exact hds x h
    by_cases h10 : n / 10 = 0
    · rw [if_pos h10] at hc
      exact hcons c hc
    · rw [if_neg h10] at hc
      exact ih (n / 10) _ hcons c hc

theorem repr_ne_brace (n : Nat) : ∀ c ∈ (Nat.repr n).data, c ≠ '\x7b' := by
  intro c hc
  have : (Nat.repr n).data = Nat.toDigitsCore 10 (n + 1) n [] := rfl
  rw [this] at hc
  exact toDigitsCore_ne_brace (n + 1) n [] (by intro x hx; cases hx) c hc

theorem padNum_ne_brace (w n : Nat) : '\x7b' ∉ (padNum w n).data := by
  intro hmem
  rcases List.mem_append.mp hmem with h | h
  · have := List.eq_of_mem_replicate h
    exact absurd this (by decide)
  · exact repr_ne_brace n _ h rfl

theorem formatCivil_no_brace (d : DateTime) : '\x7b' ∉ (formatCivil d).data := by
  have hp : ∀ w n, ('\x7b' ∈ (padNum w n).data) = False :=
    fun w n => eq_false (padNum_ne_brace w n)
  have hd : ('\x7b' ∈ ['-']) = False := by decide
  have ht : ('\x7b' ∈ ['T']) = False := by decide
  have hc : ('\x7b' ∈ [':']) = False := by decide
  simp [formatCivil, String.data_append, List.mem_append, hp, hd, ht, hc]

theorem brace_mem_buildJson (d : DateTime) : '\x7b' ∈ (buildJson d).data := by
  simp only [buildJson, String.data_append, List.mem_append]
  refine Or.inl ?_
  repeat refine Or.inl ?_
  decide

theorem buildJson_ne_rfc3339UTC (d : DateTime) (t : Nat) :
    buildJson d ≠ rfc3339UTC t := by
  intro h
  have h1 := brace_mem_buildJson d
  rw [h] at h1
  rcases List.mem_append.mp h1 with h2 | h2
  · exact formatCivil_no_brace _ h2
  · exact absurd h2 (by decide)

/-! ## Helper lemmas: path splitting and routing -/

theorem splitSeg_no_slash (l : List Char) (h : ∀ c ∈ l, c ≠ '/') :
    splitSeg l = [l] := by
  induction l with
  | nil => rfl
  | cons c cs ih =>
    have hc : c ≠ '/' := h c (List.mem_cons_self c cs)
    have ihcs : splitSeg cs = [cs] :=
      ih (fun x hx => h x (List.mem_cons_of_mem c hx))
    simp [splitSeg, hc, ihcs]

theorem pathSegs_hello (v : String) (h : ∀ c ∈ v.data, c ≠ '/') :
    pathSegs ("/hello/" ++ v) = ["hello".data, v.data] := by
  have hdata : ("/hello/" ++ v).data = "/hello/".data ++ v.data :=
    String.data_append _ _
  rw [pathSegs, hdata]
  show splitSeg ('h' :: 'e' :: 'l' :: 'l' :: 'o' :: '/' :: v.data) = _
  simp [splitSeg, splitSeg_no_slash v.data h]

theorem string_mk_data (v : String) : String.mk v.data = v := by
  cases v
  rfl

theorem findRoute_ignoreMethod (pats : List (Pattern × HandlerId))
    (hall : ∀ ph ∈ pats, ph.1.method = none) (m : String)
    (segs : List (List Char)) :
    findRoute pats true m segs = findRoute pats false m segs := by
  induction pats with
  | nil => rfl
  | cons ph rest ih =>
    obtain ⟨pat, hid⟩ := ph
    have hm : pat.method = none := hall (pat, hid) (List.mem_cons_self _ _)
    have ihr := ih (fun x hx => hall x (List.mem_cons_of_mem _ hx))
    cases hpm : patMatch pat segs <;>
      simp [findRoute, hm, methodMatches, hpm, ihr]

theorem resolve_no_405 (pats : List (Pattern × HandlerId))
    (hall : ∀ ph ∈ pats, ph.1.method = none) (m p : String) :
    resolve pats m p ≠ .methodNotAllowed := by
  have heq := findRoute_ignoreMethod pats hall m (pathSegs p)
  cases hf : findRoute pats true m (pathSegs p) with
  | some x => simp [resolve, hf]
  | none =>
    rw [hf] at heq
    simp [resolve, hf, ← heq]

theorem matchSegs_single_lit (w : List Char) (segs : List (List Char)) :
    matchSegs [Seg.lit w] segs = if segs = [w] then some [] else none := by
  match segs with
  | [] => simp [matchSegs]
  | x :: xs =>
    by_cases hx : x = w
    · subst hx
      cases xs with
      | nil => simp [matchSegs]
      | cons y ys => simp [matchSegs]
    · simp [matchSegs, hx]

theorem resolve8083_eq (m p : String) :
    resolve pats8083 m p =
      if pathSegs p = ["log".data] then .ok .logH [] else .notFound := by
  by_cases hs : pathSegs p = ["log".data] <;>
    simp [resolve, pats8083, findRoute, methodMatches, patMatch, logPat,
      matchSegs_single_lit, hs]

/-! ## Claim theorems -/

/-- Claim C2: a GET / request on the time mux with an Accept header equal to
"json" in any letter case, evaluated at the fixed instant 2024-03-05T10:15:30Z
(Unix second 1709633730), yields exactly the JSON object with the keys
day_of_week, day_of_month, month, year, hour, minute, second and the values of
that instant. -/
theorem c2_json_body_at_fixed_time (a ra : String)
    (h : eqCaseInsensitive a "json") :
    serveMux8081 1709633730 ⟨"GET", "/", [("Accept", a)], ra⟩ =
      (200, "\x7b\"day_of_week\":\"Tuesday\",\"day_of_month\":5,\"month\":\"March\",\"year\":2024,\"hour\":10,\"minute\":15,\"second\":30\x7d") := by
  have hjson : goToUpper a = "JSON" := by
    rw [goToUpper_eq_JSON_iff]
    show goToLower a = goToLower "JSON"
    rw [eqCaseInsensitive] at h
    rw [h]
    decide
  have hres : resolve pats8081 "GET" "/" = .ok .rootH [] := by decide
  have hacc : headerGet [("Accept", a)] "Accept" = a := by
    simp [headerGet, List.lookup]
  simp only [serveMux8081, hres, hacc]
  simp [rootHandler, hjson]
  decide

/-- Claim C2 witness at the concrete Accept value "jSoN". -/
theorem c2_witness :
    eqCaseInsensitive "jSoN" "json" ∧
    serveMux8081 1709633730 ⟨"GET", "/", [("Accept", "jSoN")], ""⟩ =
      (200, "\x7b\"day_of_week\":\"Tuesday\",\"day_of_month\":5,\"month\":\"March\",\"year\":2024,\"hour\":10,\"minute\":15,\"second\":30\x7d") :=
  ⟨by decide, c2_json_body_at_fixed_time "jSoN" "" (by decide)⟩

/-- Claim C3: every GET / request to the time mux whose Accept header does not
equal "JSON" case-insensitively is answered with status 200 and the current
time converted to UTC, formatted as RFC 3339 text.  (The bare time server on
port 8080 has no Accept logic at all; its catch-all behaviour is claim C10.) -/
theorem c3_utc_text_body (t : Nat) (hs : List (String × String)) (ra : String)
    (h : ¬ eqCaseInsensitive (headerGet hs "Accept") "JSON") :
    serveMux8081 t ⟨"GET", "/", hs, ra⟩ = (200, rfc3339UTC t) := by
  have hres : resolve pats8081 "GET" "/" = .ok .rootH [] := by decide
  have hcond : ¬ goToUpper (headerGet hs "Accept") = "JSON" := fun hc =>
    h ((goToUpper_eq_JSON_iff _).mp hc)
  simp only [serveMux8081, hres]
  simp [rootHandler, hcond]

/-- Claim C3 witness: a request with no Accept header at the fixed instant. -/
theorem c3_witness :
    (¬ eqCaseInsensitive (headerGet [] "Accept") "JSON") ∧
    serveMux8081 1709633730 ⟨"GET", "/", [], ""⟩ = (200, "2024-03-05T10:15:30Z") :=
  ⟨by decide, (c3_utc_text_body 1709633730 [] "" (by decide)).trans (by decide)⟩

/-- Claim C6: on the root time endpoint the JSON body is produced exactly when
the Accept value equals the string "JSON" case-insensitively; any other value
(such as the MIME type "application/json"), and the empty value `Header.Get`
yields for an absent header, produce the RFC 3339 UTC text instead. -/
theorem c6_accept_strict_match (t : Nat) (v : String) :
    ((rootHandler t v).2 = buildJson (utcFromUnix t) ↔ eqCaseInsensitive v "JSON")
    ∧ (¬ eqCaseInsensitive v "JSON" → (rootHandler t v).2 = rfc3339UTC t)
    ∧ headerGet [] "Accept" = "" ∧ ¬ eqCaseInsensitive "" "JSON" := by
  refine ⟨⟨?_, ?_⟩, ?_, by decide, by decide⟩
  · intro hb
    by_cases hc : goToUpper v = "JSON"
    · exact (goToUpper_eq_JSON_iff v).mp hc
    · exfalso
      have hrfc : (rootHandler t v).2 = rfc3339UTC t := by simp [rootHandler, hc]
      exact buildJson_ne_rfc3339UTC _ _ (hb.symm.trans hrfc)
  · intro h
    have hc : goToUpper v = "JSON" := (goToUpper_eq_JSON_iff v).mpr h
    simp [rootHandler, hc]
  · intro h
    have hc : ¬ goToUpper v = "JSON" := fun hc => h ((goToUpper_eq_JSON_iff v).mp hc)
    simp [rootHandler, hc]

/-- Claim C6 witness: "application/json" is not a case-insensitive match, so
the body is the RFC 3339 text. -/
theorem c6_witness :
    ¬ eqCaseInsensitive "application/json" "JSON" ∧
    (rootHandler 1709633730 "application/json").2 = rfc3339UTC 1709633730 :=
  ⟨by decide,
   (c6_accept_strict_match 1709633730 "application/json").2.1 (by decide)⟩

/-- Claim C7: for every non-empty `v` without a slash, GET /hello/v resolves
to the hello handler with the path parameter `name` bound to `v`, and the
response is status 200 with body "Hello " concatenated with `v`. -/
theorem c7_hello_path_param (t : Nat) (v : String) (hs : List (String × String))
    (ra : String) (hne : v ≠ "") (hslash : ∀ c ∈ v.data, c ≠ '/') :
    resolve pats8081 "GET" ("/hello/" ++ v) = .ok .helloH [("name", v)] ∧
    serveMux8081 t ⟨"GET", "/hello/" ++ v, hs, ra⟩ = (200, "Hello " ++ v) := by
  have hvd : v.data ≠ [] := fun hd =>
    hne (by rw [← string_mk_data v, hd])
  have hsegs := pathSegs_hello v hslash
  have hmatch : patMatch helloPat (pathSegs ("/hello/" ++ v)) = some [("name", v)] := by
    rw [hsegs]
    simp [patMatch, helloPat, matchSegs, hvd, string_mk_data]
  have hmm : methodMatches helloPat.method "GET" = true := rfl
  have hres : resolve pats8081 "GET" ("/hello/" ++ v) = .ok .helloH [("name", v)] := by
    simp [resolve, pats8081, findRoute, hmm, hmatch]
  refine ⟨hres, ?_⟩
  simp [serveMux8081, hres, helloHandler, List.lookup]

/-- Claim C7 witness: the concrete scenario GET /hello/Ada. -/
theorem c7_witness :
    ("Ada" ≠ "" ∧ ∀ c ∈ "Ada".data, c ≠ '/') ∧
    (resolve pats8081 "GET" "/hello/Ada" = .ok .helloH [("name", "Ada")] ∧
     serveMux8081 0 ⟨"GET", "/hello/Ada", [], ""⟩ = (200, "Hello Ada")) :=
  ⟨⟨by decide, by decide⟩, c7_hello_path_param 0 "Ada" [] "" (by decide) (by decide)⟩

/-- Claim C5 counterexample: the claim expects MethodNotAllowedError when a
registered path is resolved under another method, but the patterns carry no
method restriction: POST on /hello/Ada resolves to the hello handler, not to
MethodNotAllowedError. -/
theorem c5_counterexample :
    resolve pats8081 "POST" "/hello/Ada" = .ok .helloH [("name", "Ada")] ∧
    resolve pats8081 "POST" "/hello/Ada" ≠ .methodNotAllowed := by
  decide

/-- Claim C5 amended: no pattern restricts the method, so every registered
path resolves to its handler under every method and resolution never yields
MethodNotAllowedError; an unregistered path fails with NotFoundError on the
log mux (whose only pattern is /log), while on the time mux the catch-all
pattern / matches every path. -/
theorem c5_amended_no_method_restriction (m p : String) :
    resolve pats8081 m p ≠ .methodNotAllowed ∧
    resolve pats8083 m p ≠ .methodNotAllowed ∧
    resolve pats8083 m p =
      (if pathSegs p = ["log".data] then .ok .logH [] else .notFound) ∧
    resolve pats8081 m "/hello/Ada" = .ok .helloH [("name", "Ada")] ∧
    resolve pats8081 m "/" = .ok .rootH [] ∧
    resolve pats8083 m "/log" = .ok .logH [] := by
  have h81 : ∀ ph ∈ pats8081, ph.1.method = none := by
    intro ph hm
    fin_cases hm <;> rfl
  have h83 : ∀ ph ∈ pats8083, ph.1.method = none := by
    intro ph hm
    fin_cases hm
    rfl
  exact ⟨resolve_no_405 _ h81 m p, resolve_no_405 _ h83 m p,
    resolve8083_eq m p, rfl, rfl, rfl⟩

/-- Claim C1 counterexample: one request to /log produces two structured log
records, not exactly one, and no record carries a field named clientAddress
(the attribute key the code uses is "ip:"). -/
theorem c1_counterexample :
    countRecords (serveMux8083 ⟨"GET", "/log", [], "203.0.113.7:4242"⟩).2 = 2 ∧
    countRecords (serveMux8083 ⟨"GET", "/log", [], "203.0.113.7:4242"⟩).2 ≠ 1 ∧
    ((serveMux8083 ⟨"GET", "/log", [], "203.0.113.7:4242"⟩).2.all
      (fun e => (recordAttrs e).all (fun kv => kv.1 != "clientAddress"))) = true := by
  decide

/-- Claim C1 amended: each request handled by the middleware emits exactly two
structured log records, and every attribute of those records is the key "ip:"
holding the request's remote network address. -/
theorem c1_amended_two_ip_records (r : Request) :
    countRecords (ipAddressLogger logBaseHandler r).2 = 2 ∧
    ∀ e ∈ (ipAddressLogger logBaseHandler r).2, ∀ kv ∈ recordAttrs e,
      kv = ("ip:", r.remoteAddr) := by
  refine ⟨rfl, ?_⟩
  intro e he kv hkv
  simp [ipAddressLogger, logBaseHandler, ipPreEvents] at he
  rcases he with h | h | h <;> subst h <;> simp_all [recordAttrs]

/-- Claim C4 counterexample: the logger is not initialized once at startup and
shared; two requests cause two logger constructions — one per request. -/
theorem c4_counterexample :
    countLoggerCreations ((serveMux8083 ⟨"GET", "/log", [], "198.51.100.1:1111"⟩).2 ++
      (serveMux8083 ⟨"GET", "/log", [], "198.51.100.2:2222"⟩).2) = 2 ∧
    countLoggerCreations ((serveMux8083 ⟨"GET", "/log", [], "198.51.100.1:1111"⟩).2 ++
      (serveMux8083 ⟨"GET", "/log", [], "198.51.100.2:2222"⟩).2) ≠ 1 ∧
    countLoggerCreations (serveMux8083 ⟨"GET", "/log", [], "198.51.100.1:1111"⟩).2 = 1 := by
  decide

/-- Claim C4 amended: the middleware constructs a fresh structured logging
instance inside every request it handles (the shared, process-wide part is
only the underlying stdout sink). -/
theorem c4_amended_per_request_logger (r : Request)
    (h : Request → (Nat × String) × List Event) :
    (ipAddressLogger h r).2 = ipPreEvents r ++ (h r).2 ∧
    countLoggerCreations (ipPreEvents r) = 1 :=
  ⟨rfl, rfl⟩

/-- Claim C9: the middleware is a pure pass-through — it returns the wrapped
handler's response unchanged, its own log events all precede the wrapped
handler's events, and it invokes the wrapped handler exactly once. -/
theorem c9_pass_through (r : Request)
    (h : Request → (Nat × String) × List Event) (resp : Request → Nat × String) :
    (ipAddressLogger h r).1 = (h r).1 ∧
    (ipAddressLogger h r).2 = ipPreEvents r ++ (h r).2 ∧
    countInvocations (ipPreEvents r) = 0 ∧
    (ipAddressLogger (fun q => (resp q, [Event.handlerInvoked])) r).2
      = ipPreEvents r ++ [Event.handlerInvoked] ∧
    countInvocations ((ipAddressLogger (fun q => (resp q, [Event.handlerInvoked])) r).2) = 1 :=
  ⟨rfl, rfl, rfl, rfl, rfl⟩

/-- Claim C8: when a listener's serve loop returns, the ErrServerClosed
sentinel (and a nil error) ends the goroutine normally, while every other
error is passed to panic, which terminates the process. -/
theorem c8_sentinel_not_fatal :
    afterListenAndServe (some ServeErr.serverClosed) = ListenOutcome.completed ∧
    afterListenAndServe none = ListenOutcome.completed ∧
    ∀ e : ServeErr, e ≠ ServeErr.serverClosed →
      afterListenAndServe (some e) = ListenOutcome.fatalStop e := by
  refine ⟨rfl, rfl, ?_⟩
  intro e he
  cases e with
  | serverClosed => exact absurd rfl he
  | other msg => rfl

/-- Claim C8 witness: a concrete non-sentinel listen error is fatal. -/
theorem c8_witness :
    (ServeErr.other "listen tcp :8080: bind: address already in use" ≠
      ServeErr.serverClosed) ∧
    afterListenAndServe (some (ServeErr.other "listen tcp :8080: bind: address already in use")) =
      ListenOutcome.fatalStop (ServeErr.other "listen tcp :8080: bind: address already in use") :=
  ⟨by decide, c8_sentinel_not_fatal.2.2 _ (by decide)⟩

/-- Claim C10: the port-8080 server hands every request, whatever its path and
method, to GetHandler, which answers 200 with the current time rendered as
RFC 3339 in the local zone — no UTC conversion (at a +02:00 zone the civil
fields shift and the suffix is +02:00, as the closed instance shows). -/
theorem c10_catch_all_local_time (r r' : Request) (t : Nat) (off : Int) :
    serve8080 r t off = (200, goFormatRFC3339 t off) ∧
    serve8080 r t off = serve8080 r' t off ∧
    serve8080 ⟨"POST", "/some/other/path", [], ""⟩ 1709633730 120 =
      (200, "2024-03-05T12:15:30+02:00") :=
  ⟨rfl, rfl, by decide⟩
